import Mathlib

/-!
Shallow embedding of the terminal expense tracker (src/main.go): the Excel
document model, the read and write paths, the Bubble Tea model/update loop,
and the fsnotify watcher timing, together with theorems checking the
natural-language specification against this embedding.
-/

namespace ExpenseTracker

/-- A spreadsheet cell.  Cells of the xlsx document are typed: excelize
SetCellValue with a Go string stores a text cell, with a float64 a numeric
cell.  Amounts are modelled as rationals. -/
inductive Cell where
  | str (s : String)
  | num (q : ℚ)
deriving DecidableEq, Repr

/-- Digits of a decimal numeral to a natural number; fails on an empty or
non-digit list.  Helper for the model of strconv.ParseFloat. -/
def natOfDigits (cs : List Char) : Option Nat :=
  if cs = [] then none
  else if cs.all Char.isDigit then
    some (cs.foldl (fun n c => n * 10 + (c.toNat - 48)) 0)
  else none

/-- Split a character list at the first dot, if any. -/
def breakDot : List Char → List Char × Option (List Char)
  | [] => ([], none)
  | c :: cs =>
    if c = '.' then ([], some cs)
    else
      let (ip, fp) := breakDot cs
      (c :: ip, fp)

/-- Model of strconv.ParseFloat for plain decimal literals (optional sign,
integer part, optional fractional part); other inputs fail.  The Go code
ignores the parse error, so callers default to 0 on failure. -/
def parseDecimal (s : String) : Option ℚ :=
  let p : ℚ × List Char :=
    match s.data with
    | '-' :: rest => (-1, rest)
    | '+' :: rest => (1, rest)
    | rest => (1, rest)
  match breakDot p.2 with
  | (ip, none) => (natOfDigits ip).map (fun n => p.1 * (n : ℚ))
  | (ip, some fp) =>
    match natOfDigits ip, natOfDigits fp with
    | some i, some f => some (p.1 * ((i : ℚ) + (f : ℚ) / (10 : ℚ) ^ fp.length))
    | _, _ => none

/-- The string form of a cell, as returned by excelize GetRows. -/
def cellStr : Cell → String
  | .str s => s
  | .num q => toString q

/-- GetRows followed by strconv.ParseFloat with the error ignored (zero on
failure): a numeric cell yields its exact value (Go float64 formatting
round-trips), a text cell is parsed as a decimal literal. -/
def cellFloat : Cell → ℚ
  | .str s => (parseDecimal s).getD 0
  | .num q => q

/-- Value a cell contributes to a SUM formula: numeric cells count, text and
empty cells are ignored (spreadsheet SUM semantics). -/
def sumCellValue : Cell → ℚ
  | .str _ => 0
  | .num q => q

/-- The document: one cell grid (list of rows) per sheet, in the form GetRows
returns them — row 1 of the sheet is index 0. -/
structure Doc where
  expensesRows : List (List Cell)
  stonksRows : List (List Cell)
  watchListRows : List (List Cell)
deriving DecidableEq, Repr

/-- Expense row, main.go lines 63-66. -/
structure Expense where
  name : String
  amount : ℚ
deriving DecidableEq, Repr

/-- Stonk row, main.go lines 67-72. -/
structure Stonk where
  symbol : String
  change : ℚ
  comment : String
  extra : ℚ
deriving DecidableEq, Repr

/-- WatchList row, main.go lines 73-77. -/
structure WatchItem where
  symbol : String
  qty : String
  owned : Bool
deriving DecidableEq, Repr

/-- The snapshot message a successful read produces, main.go lines 79-84. -/
structure excelDataMsg where
  expenses : List Expense
  stonks : List Stonk
  watchList : List WatchItem
  totalExpenses : ℚ
deriving DecidableEq, Repr

/-- readExpenses, main.go lines 200-216: skip the header row, skip any row
with fewer than 2 cells, parse name from column A and amount from column B
(parse errors ignored, yielding 0). -/
def readExpenses (rows : List (List Cell)) : List Expense :=
  (rows.drop 1).filterMap fun line =>
    if line.length < 2 then none
    else some { name := cellStr (line.getD 0 (.str ""))
                amount := cellFloat (line.getD 1 (.str "")) }

/-- readStonks, main.go lines 217-235: skip the header row, skip any row with
fewer than 4 cells. -/
def readStonks (rows : List (List Cell)) : List Stonk :=
  (rows.drop 1).filterMap fun line =>
    if line.length < 4 then none
    else some { symbol := cellStr (line.getD 0 (.str ""))
                change := cellFloat (line.getD 1 (.str ""))
                comment := cellStr (line.getD 2 (.str ""))
                extra := cellFloat (line.getD 3 (.str "")) }

/-- readWatchList, main.go lines 236-253: skip the header row, skip any row
with fewer than 3 cells; owned is the string comparison with "Yes". -/
def readWatchList (rows : List (List Cell)) : List WatchItem :=
  (rows.drop 1).filterMap fun line =>
    if line.length < 3 then none
    else some { symbol := cellStr (line.getD 0 (.str ""))
                qty := cellStr (line.getD 1 (.str ""))
                owned := cellStr (line.getD 2 (.str "")) == "Yes" }

/-- Evaluation of the reserved total cell, main.go lines 185-189: the code
sets D2 of the Expenses sheet to the formula SUM(B3:B9) and evaluates it.
Sheet rows 3 to 9 are 0-based indices 2 to 8; column B is cell index 1.
Note the range starts at sheet row 3 although the first data row is sheet
row 2 (readExpenses starts at rows[1], writeExcelData writes row i+2). -/
def sumFormulaB3B9 (rows : List (List Cell)) : ℚ :=
  ((List.range 7).map fun k =>
    sumCellValue ((rows.getD (k + 2) []).getD 1 (Cell.str ""))).sum

/-- readExcelData, main.go lines 164-197: read the three sheets and evaluate
the total formula.  File-open failure is a boundary condition handled at the
call sites (initialModel takes an Option). -/
def readExcelData (d : Doc) : excelDataMsg :=
  { expenses := readExpenses d.expensesRows
    stonks := readStonks d.stonksRows
    watchList := readWatchList d.watchListRows
    totalExpenses := sumFormulaB3B9 d.expensesRows }

/-- sumExpenses, main.go lines 412-418. -/
def sumExpenses (expenses : List Expense) : ℚ :=
  expenses.foldl (fun total e => total + e.amount) 0

/-! ## The write path -/

/-- Set cell index c of one row, extending the row with empty text cells as
needed (excelize SetCellValue semantics within a row). -/
def setInRow (row : List Cell) (c : Nat) (v : Cell) : List Cell :=
  (row ++ List.replicate (c + 1 - row.length) (Cell.str "")).set c v

/-- SetCellValue on a sheet grid: 0-based row r / column c, extending the
grid with empty rows as needed. -/
def setCell (rows : List (List Cell)) (r c : Nat) (v : Cell) : List (List Cell) :=
  let rows2 := rows ++ List.replicate (r + 1 - rows.length) []
  rows2.set r (setInRow (rows2.getD r []) c v)

/-- The Expenses loop of writeExcelData, main.go lines 282-286: expense i
goes to sheet row i+2, 0-based index i+1; column A is the name, column B the
amount.  The parameter i is the Go loop index. -/
def writeExpenseRows (rows : List (List Cell)) (i : Nat) :
    List Expense → List (List Cell)
  | [] => rows
  | e :: rest =>
    writeExpenseRows
      (setCell (setCell rows (i + 1) 0 (.str e.name)) (i + 1) 1 (.num e.amount))
      (i + 1) rest

/-- The Stonks loop of writeExcelData, main.go lines 288-294. -/
def writeStonkRows (rows : List (List Cell)) (i : Nat) :
    List Stonk → List (List Cell)
  | [] => rows
  | st :: rest =>
    writeStonkRows
      (setCell (setCell (setCell (setCell rows
          (i + 1) 0 (.str st.symbol))
          (i + 1) 1 (.num st.change))
          (i + 1) 2 (.str st.comment))
          (i + 1) 3 (.num st.extra))
      (i + 1) rest

/-- The WatchList loop of writeExcelData, main.go lines 296-305: owned is
written as the text "Yes" or "No". -/
def writeWatchRows (rows : List (List Cell)) (i : Nat) :
    List WatchItem → List (List Cell)
  | [] => rows
  | w :: rest =>
    writeWatchRows
      (setCell (setCell (setCell rows
          (i + 1) 0 (.str w.symbol))
          (i + 1) 1 (.str w.qty))
          (i + 1) 2 (.str (if w.owned then "Yes" else "No")))
      (i + 1) rest

/-- writeExcelData, main.go lines 273-307: overwrite each collection's rows
positionally starting at sheet row 2; rows beyond the new collection length
are not deleted. -/
def writeExcelData (d : Doc) (expenses : List Expense) (stonks : List Stonk)
    (watchList : List WatchItem) : Doc :=
  { expensesRows := writeExpenseRows d.expensesRows 0 expenses
    stonksRows := writeStonkRows d.stonksRows 0 stonks
    watchListRows := writeWatchRows d.watchListRows 0 watchList }

/-! ## The Bubble Tea model and update loop -/

/-- Screens, main.go lines 18-25. -/
inductive screen where
  | screenMenu
  | screenExpenses
  | screenStonks
  | screenWatchlist
deriving DecidableEq, Repr

/-- The Bubble Tea model, main.go lines 87-96.  The expensesTable field is
pure rendering state and is omitted; err is the Go error field (none models
nil). -/
structure model where
  expenses : List Expense
  stonks : List Stonk
  watchList : List WatchItem
  err : Option String
  editing : Bool
  currentScreen : screen
  totalExpenses : ℚ
deriving DecidableEq, Repr

/-- The commands Update can return (tea.Cmd values appearing in main.go):
re-arm the watcher, run the write command, quit, or open an edit form. -/
inductive Cmd where
  | none
  | watch (filename : String)
  | write (exp : List Expense) (st : List Stonk) (wl : List WatchItem)
  | quit
  | editForm (index : Int)
  | newForm
deriving DecidableEq, Repr

/-- The messages Update dispatches on, main.go lines 314-375. -/
inductive Msg where
  | excelData (d : excelDataMsg)
  | errM (e : String)
  | key (k : String)
  | expenseEdited (index : Int) (expense : Expense)
deriving DecidableEq, Repr

/-- initialModel, main.go lines 102-122: none models a failed initial read,
in which case the data is replaced by an empty excelDataMsg (totalExpenses
zero value) and the error is only logged — the err field of the model is
never assigned, so it keeps its zero value nil. -/
def initialModel (r : Option excelDataMsg) : model :=
  let data : excelDataMsg :=
    match r with
    | some d => d
    | none => { expenses := [], stonks := [], watchList := [], totalExpenses := 0 }
  { expenses := data.expenses
    stonks := data.stonks
    watchList := data.watchList
    err := none
    editing := false
    currentScreen := .screenMenu
    totalExpenses := data.totalExpenses }

/-- model.Update, main.go lines 314-375.  The result is none exactly when
the Go code panics: the expenseEditedMsg replace branch indexes the expenses
slice directly with msg.index, which faults when the index is not -1 and not
a valid position.  All other branches return some. -/
def update (m : model) : Msg → Option (model × Cmd)
  | .excelData d =>
    some ({ m with
            expenses := d.expenses
            stonks := d.stonks
            watchList := d.watchList
            totalExpenses := d.totalExpenses },
          .watch "data.xlsx")
  | .errM e => some ({ m with err := some e }, .watch "data.xlsx")
  | .key k =>
    if k = "q" ∨ k = "ctrl+c" then some (m, .quit)
    else if k = "e" then
      if 0 < m.expenses.length ∧ m.editing = false then
        some ({ m with editing := true }, .editForm 0)
      else some (m, .none)
    else if k = "n" then
      if m.editing = false then some ({ m with editing := true }, .newForm)
      else some (m, .none)
    else if k = "1" then some ({ m with currentScreen := .screenExpenses }, .none)
    else if k = "2" then some ({ m with currentScreen := .screenStonks }, .none)
    else if k = "3" then some ({ m with currentScreen := .screenWatchlist }, .none)
    else if k = "b" then some ({ m with currentScreen := .screenMenu }, .none)
    else some (m, .none)
  | .expenseEdited idx e =>
    if idx = -1 then
      some ({ m with expenses := m.expenses ++ [e], editing := false },
            .write (m.expenses ++ [e]) m.stonks m.watchList)
    else if 0 ≤ idx ∧ idx < (m.expenses.length : Int) then
      some ({ m with expenses := m.expenses.set idx.toNat e, editing := false },
            .write (m.expenses.set idx.toNat e) m.stonks m.watchList)
    else none

/-! ## Watcher and write-command timing -/

/-- fsnotify operation kinds. -/
inductive FsOp where
  | write
  | create
  | remove
  | rename
  | chmod
deriving DecidableEq, Repr

/-- The event mask of watchExcelCmd, main.go line 149: only Write and Create
events trigger a reload. -/
def opMatches : FsOp → Bool
  | .write => true
  | .create => true
  | _ => false

/-- Debounce/sleep duration of the watcher and the write command,
main.go lines 150 and 263: 500 milliseconds. -/
def D : Nat := 500

/-- Reload times produced by the watcher re-arm loop, derived from
watchExcelCmd (main.go lines 133-162) and the excelDataMsg handler
(main.go line 325).  Input: the raw filesystem events on the path in time
order.  A watcher armed at time arm ignores events delivered before arm
(they went to no subscriber or to a defunct instance's channel) and events
whose operation does not match the Write or Create mask; on the first
matching event at time t it sleeps D, reads the file and returns, and the
handler immediately arms a fresh watcher at time t + D.  Events arriving
during the sleep are never consumed.  Note there is no timer restart: the
sleep is a fixed D from the first event, not from the last. -/
def watcherReloadTimes : Nat → List (Nat × FsOp) → List Nat
  | _, [] => []
  | arm, (t, op) :: ts =>
    if t < arm ∨ opMatches op = false then watcherReloadTimes arm ts
    else (t + D) :: watcherReloadTimes (t + D) ts

/-- The message writeExcelCmd returns, main.go lines 255-271: on a failed
write an errMsg; on success it sleeps D and then reads the freshly written
file, returning its snapshot. -/
def writeExcelCmdMsg (d : Doc) (exp : List Expense) (st : List Stonk)
    (wl : List WatchItem) (ok : Bool) : Msg :=
  if ok then .excelData (readExcelData (writeExcelData d exp st wl))
  else .errM "write error"

/-- True exactly for the messages that replace the Snapshot (excelDataMsg). -/
def isReload : Msg → Bool
  | .excelData _ => true
  | _ => false

/-- All Snapshot-reload-bearing messages one successful commit produces: the
forced post-write reload returned by writeExcelCmd itself, together with the
reloads the armed watcher derives from the write event the commit's own save
(f.Save, main.go line 306) causes at time t.  The commit handler
(main.go lines 360-370) returns only writeExcelCmd and tears nothing down —
the code has no unwatch mechanism — so the watcher armed at time arm by the
previous reload is still subscribed during the write. -/
def commitMsgs (d : Doc) (exp : List Expense) (st : List Stonk)
    (wl : List WatchItem) (arm t : Nat) : List Msg :=
  writeExcelCmdMsg d exp st wl true ::
    (watcherReloadTimes arm [(t, FsOp.write)]).map
      (fun _ => Msg.excelData (readExcelData (writeExcelData d exp st wl)))

/-! ## Concrete sample data -/

/-- A document with no content in any sheet. -/
def emptyDoc : Doc := { expensesRows := [], stonksRows := [], watchListRows := [] }

/-- Scenario A document: the Expenses sheet holds a header row and the three
data rows (Rent,1000), (Food,200), (Fun,50) at sheet rows 2-4, exactly as
readExpenses and writeExcelData lay them out. -/
def scenarioADoc : Doc :=
  { expensesRows :=
      [[.str "Name", .str "Amount"],
       [.str "Rent", .num 1000],
       [.str "Food", .num 200],
       [.str "Fun", .num 50]]
    stonksRows := []
    watchListRows := [] }

/-! ## Claims -/

/-- C2: the spec claims that for the document whose expense rows are exactly
(Rent,1000), (Food,200), (Fun,50) the read yields totalExpenses = 1250, the
evaluated summation over the expenses amount column.  The code is internally
inconsistent: it reads and writes data rows starting at sheet row 2, but the
formula it evaluates is SUM(B3:B9), which excludes the first data row.  On
the Scenario A document the rows are read correctly but the computed total
is 250, not 1250. -/
theorem c2_total_formula_misses_first_row :
    (readExcelData scenarioADoc).expenses =
      [{ name := "Rent", amount := 1000 },
       { name := "Food", amount := 200 },
       { name := "Fun", amount := 50 }]
    ∧ (readExcelData scenarioADoc).totalExpenses = 250
    ∧ sumExpenses (readExcelData scenarioADoc).expenses = 1250
    ∧ (readExcelData scenarioADoc).totalExpenses ≠ 1250 := by
  refine ⟨rfl, by norm_num [readExcelData, scenarioADoc, sumFormulaB3B9,
    List.range_succ, sumCellValue], by norm_num [readExcelData, readExpenses,
    scenarioADoc, sumExpenses, cellStr, cellFloat, List.filterMap_cons,
    List.getD], ?_⟩
  norm_num [readExcelData, scenarioADoc, sumFormulaB3B9, List.range_succ,
    sumCellValue]

/-- C9: handling a reload (excelDataMsg case, main.go lines 317-325) in any
state replaces exactly the four displayed data fields and re-arms the
watcher; the editing flag, the current screen and the error field are left
unchanged, so in particular an open editing session is not closed and its
draft (held by the running form command, outside the model) is untouched. -/
theorem c9_reload_preserves_session (m : model) (d : excelDataMsg) :
    update m (.excelData d) =
      some ({ m with
              expenses := d.expenses
              stonks := d.stonks
              watchList := d.watchList
              totalExpenses := d.totalExpenses },
            .watch "data.xlsx")
    ∧ (update m (.excelData d)).map (fun r => r.1.editing) = some m.editing
    ∧ (update m (.excelData d)).map (fun r => r.1.currentScreen) = some m.currentScreen
    ∧ (update m (.excelData d)).map (fun r => r.1.err) = some m.err :=
  ⟨rfl, rfl, rfl, rfl⟩

/-- C10: the expenseEditedMsg handler (main.go lines 360-366) is safe exactly
when -1 ≤ index < length of the current expenses: index -1 takes the append
branch, a valid position takes the replace branch, and any other index makes
the direct slice indexing m.expenses[msg.index] fault (modelled as none)
rather than return an error. -/
theorem c10_commit_index_safety (m : model) (i : Int) (e : Expense) :
    (update m (.expenseEdited i e)).isSome ↔
      -1 ≤ i ∧ i < (m.expenses.length : Int) := by
  simp only [update]
  split_ifs with h1 h2 <;> simp <;> omega

/-- C8 counterexample: on a failed initial read the claim says the read
error is surfaced in the UI state, but initialModel (main.go lines 102-122)
only logs it — the err field of the initial model is still none. -/
theorem c8_counterexample :
    (initialModel none).err = none ∧ ¬ (initialModel none).err ≠ none :=
  ⟨rfl, fun h => h rfl⟩

/-- C8 amended: if the initial read of the document fails, the process does
not terminate and the initial state holds an empty Snapshot (empty expenses,
stonks and watchList, total 0, menu screen, not editing) — but the read
error is only logged, not surfaced in the UI state: err remains none. -/
theorem c8_startup_degrades_to_empty :
    initialModel none =
      { expenses := []
        stonks := []
        watchList := []
        err := none
        editing := false
        currentScreen := .screenMenu
        totalExpenses := 0 } := rfl

/-- C6: commit semantics of the expenseEditedMsg handler (main.go
lines 360-370; newExpenseForm signals "new" with index -1, main.go
line 520): committing with index -1 appends the drafted expense — the
length grows by one and the prior elements are an unchanged prefix — and
committing with a valid numeric index i replaces exactly the element at
position i: the length, the prefix before i and the suffix after i are all
unchanged. -/
theorem c6_commit_append_and_replace (m : model) (e : Expense) (i : Nat)
    (h : i < m.expenses.length) :
    (update m (.expenseEdited (-1) e)).map (fun r => r.1.expenses) =
      some (m.expenses ++ [e])
    ∧ (m.expenses ++ [e]).length = m.expenses.length + 1
    ∧ (m.expenses ++ [e]).take m.expenses.length = m.expenses
    ∧ (update m (.expenseEdited (i : Int) e)).map (fun r => r.1.expenses) =
      some (m.expenses.set i e)
    ∧ (m.expenses.set i e).length = m.expenses.length
    ∧ (m.expenses.set i e)[i]? = some e
    ∧ (m.expenses.set i e).take i = m.expenses.take i
    ∧ (m.expenses.set i e).drop (i + 1) = m.expenses.drop (i + 1) := by
  have hne : ((i : Int)) ≠ -1 := by omega
  have h0 : (0 : Int) ≤ (i : Int) := by omega
  have hlt : ((i : Int)) < (m.expenses.length : Int) := by exact_mod_cast h
  refine ⟨by simp [update], by simp, List.take_left _ _,
    by simp [update, hne, h0, hlt], by simp, by simp [h], ?_, ?_⟩
  · apply List.ext_getElem?
    intro n
    rw [List.getElem?_take, List.getElem?_take]
    by_cases hn : n < i
    · simp [hn, List.getElem?_set_ne (by omega : i ≠ n)]
    · simp [hn]
  · apply List.ext_getElem?
    intro n
    rw [List.getElem?_drop, List.getElem?_drop]
    exact List.getElem?_set_ne (by omega)

/-- Sample model for witnesses: two expenses, an editing session open. -/
def mW : model :=
  { expenses := [{ name := "a", amount := 1 }, { name := "b", amount := 2 }]
    stonks := []
    watchList := []
    err := none
    editing := true
    currentScreen := .screenExpenses
    totalExpenses := 3 }

/-- Sample drafted expense for witnesses. -/
def eW : Expense := { name := "c", amount := 7 }

/-- Witness for C6 at the sample model, index 1. -/
theorem c6_commit_append_and_replace_witness :
    1 < mW.expenses.length ∧
    ((update mW (.expenseEdited (-1) eW)).map (fun r => r.1.expenses) =
        some (mW.expenses ++ [eW])
      ∧ (mW.expenses ++ [eW]).length = mW.expenses.length + 1
      ∧ (mW.expenses ++ [eW]).take mW.expenses.length = mW.expenses
      ∧ (update mW (.expenseEdited ((1 : Nat) : Int) eW)).map (fun r => r.1.expenses) =
        some (mW.expenses.set 1 eW)
      ∧ (mW.expenses.set 1 eW).length = mW.expenses.length
      ∧ (mW.expenses.set 1 eW)[1]? = some eW
      ∧ (mW.expenses.set 1 eW).take 1 = mW.expenses.take 1
      ∧ (mW.expenses.set 1 eW).drop 2 = mW.expenses.drop 2) :=
  ⟨by decide, c6_commit_append_and_replace mW eW 1 (by decide)⟩

/-- C7: a data row missing a required column is omitted from the parsed
collection without disturbing the rows around it: deleting such a row from
the sheet does not change what readWatchList (rows shorter than 3 cells) or
readExpenses (rows shorter than 2 cells) return, and the read never
aborts. -/
theorem c7_parse_resilience (hdr badW badE : List Cell)
    (pre post : List (List Cell)) (hW : badW.length < 3) (hE : badE.length < 2) :
    readWatchList (hdr :: (pre ++ badW :: post)) =
      readWatchList (hdr :: (pre ++ post))
    ∧ readExpenses (hdr :: (pre ++ badE :: post)) =
      readExpenses (hdr :: (pre ++ post)) := by
  constructor
  · simp [readWatchList, List.filterMap_append, List.filterMap_cons, if_pos hW]
  · simp [readExpenses, List.filterMap_append, List.filterMap_cons, if_pos hE]

/-- Witness for C7: a WatchList sheet with a 2-cell row among two valid rows
and an Expenses sheet with a 1-cell row among valid rows. -/
theorem c7_parse_resilience_witness :
    ([Cell.str "X", Cell.str "1"] : List Cell).length < 3
    ∧ ([Cell.str "Y"] : List Cell).length < 2
    ∧ (readWatchList ([Cell.str "Symbol", Cell.str "Qty", Cell.str "Owned"] ::
        ([[Cell.str "AAPL", Cell.str "10", Cell.str "Yes"]] ++
          [Cell.str "X", Cell.str "1"] :: [[Cell.str "MSFT", Cell.str "5", Cell.str "No"]])) =
      readWatchList ([Cell.str "Symbol", Cell.str "Qty", Cell.str "Owned"] ::
        ([[Cell.str "AAPL", Cell.str "10", Cell.str "Yes"]] ++
          [[Cell.str "MSFT", Cell.str "5", Cell.str "No"]]))
      ∧ readExpenses ([Cell.str "Name", Cell.str "Amount"] ::
          ([[Cell.str "Rent", Cell.num 1000]] ++
            [Cell.str "Y"] :: [[Cell.str "Fun", Cell.num 50]])) =
        readExpenses ([Cell.str "Name", Cell.str "Amount"] ::
          ([[Cell.str "Rent", Cell.num 1000]] ++ [[Cell.str "Fun", Cell.num 50]]))) :=
  ⟨by decide, by decide,
    c7_parse_resilience [Cell.str "Symbol", Cell.str "Qty", Cell.str "Owned"]
      [Cell.str "X", Cell.str "1"] [Cell.str "Y"]
      [[Cell.str "AAPL", Cell.str "10", Cell.str "Yes"]]
      [[Cell.str "MSFT", Cell.str "5", Cell.str "No"]] (by decide) (by decide)
    |>.imp id (fun _ =>
      (c7_parse_resilience [Cell.str "Name", Cell.str "Amount"]
        [Cell.str "X", Cell.str "1"] [Cell.str "Y"]
        [[Cell.str "Rent", Cell.num 1000]]
        [[Cell.str "Fun", Cell.num 50]] (by decide) (by decide)).2)⟩

/-- Sample model for the C4 trace: empty expenses, one stonk, one watch
item. -/
def m4 : model :=
  { expenses := []
    stonks := [{ symbol := "ACME", change := 1, comment := "up", extra := 2 }]
    watchList := [{ symbol := "ACME", qty := "3", owned := true }]
    err := none
    editing := true
    currentScreen := .screenExpenses
    totalExpenses := 0 }

/-- The drafted expense committed in the C4 trace. -/
def eX : Expense := { name := "X", amount := 5 }

/-- C4 counterexample: commit a new expense on m4, then let the write fail
(errMsg).  The claim says the in-memory Snapshot is left unchanged from its
value before the commit, but the expenses were already mutated when the
commit message was handled (main.go line 363) and the errMsg handler rolls
nothing back: after the failure the expenses hold the committed draft, not
the pre-commit value. -/
theorem c4_counterexample :
    ((update m4 (.expenseEdited (-1) eX)).bind
      (fun r => (update r.1 (.errM "write error")).map (fun r2 => r2.1.expenses))) =
      some [eX]
    ∧ m4.expenses = []
    ∧ ([eX] : List Expense) ≠ m4.expenses :=
  ⟨rfl, rfl, by decide⟩

/-- C4 amended: when the document write of a commit fails, the errMsg
handler (main.go lines 327-329) surfaces the error in the err field and
re-arms the watcher, and the stonks, watchList and totalExpenses of the
pre-commit model are indeed unchanged — but the expenses already reflect
the committed edit from commit time (for an index -1 commit they are the
pre-commit expenses with the draft appended) and are not rolled back. -/
theorem c4_write_failure_state (m m1 : model) (c : Cmd) (i : Int) (e : Expense)
    (s : String) (h : update m (.expenseEdited i e) = some (m1, c)) :
    update m1 (.errM s) = some ({ m1 with err := some s }, .watch "data.xlsx")
    ∧ m1.stonks = m.stonks
    ∧ m1.watchList = m.watchList
    ∧ m1.totalExpenses = m.totalExpenses
    ∧ m1.editing = false
    ∧ (i = -1 → m1.expenses = m.expenses ++ [e]) := by
  refine ⟨rfl, ?_⟩
  simp only [update] at h
  split_ifs at h with h1 h2
  · rw [Option.some.injEq, Prod.mk.injEq] at h
    obtain ⟨hm, -⟩ := h
    subst hm
    exact ⟨rfl, rfl, rfl, rfl, fun _ => rfl⟩
  · rw [Option.some.injEq, Prod.mk.injEq] at h
    obtain ⟨hm, -⟩ := h
    subst hm
    exact ⟨rfl, rfl, rfl, rfl, fun hi => absurd hi h1⟩

/-- The model after the C4 commit: the draft appended, editing closed. -/
def m4e : model :=
  { expenses := [eX]
    stonks := m4.stonks
    watchList := m4.watchList
    err := none
    editing := false
    currentScreen := .screenExpenses
    totalExpenses := 0 }

/-- Witness for C4 at the concrete trace of m4. -/
theorem c4_write_failure_state_witness :
    update m4 (.expenseEdited (-1) eX) =
      some (m4e, .write m4e.expenses m4.stonks m4.watchList)
    ∧ (update m4e (.errM "boom") =
        some ({ m4e with err := some "boom" }, .watch "data.xlsx")
      ∧ m4e.stonks = m4.stonks
      ∧ m4e.watchList = m4.watchList
      ∧ m4e.totalExpenses = m4.totalExpenses
      ∧ m4e.editing = false
      ∧ ((-1 : Int) = -1 → m4e.expenses = m4.expenses ++ [eX])) :=
  ⟨by decide,
    c4_write_failure_state m4 m4e (.write m4e.expenses m4.stonks m4.watchList)
      (-1) eX "boom" (by decide)⟩

/-- C1 counterexample: one concrete commit (write the single expense (A,1)
into the empty document, previous watcher armed at time 0, save event at
time 0).  The claim says exactly one reload per commit, but the commit
yields two reload messages: the forced post-write reload of writeExcelCmd
and the echo reload the still-armed watcher makes from the commit's own
write event — the code has no suppression mechanism. -/
theorem c1_counterexample :
    (commitMsgs emptyDoc [{ name := "A", amount := 1 }] [] [] 0 0).countP isReload = 2
    ∧ (2 : Nat) ≠ 1 :=
  ⟨rfl, by decide⟩

/-- C1 amended: every successful commit produces exactly two Snapshot
reloads, not one: the forced post-write reload and the self-write echo
reload of the watcher armed at any time arm ≤ t (the watcher re-armed by
the previous reload is still subscribed when the commit's save fires its
write event at time t, and nothing suppresses it). -/
theorem c1_commit_double_reload (d : Doc) (exp : List Expense) (st : List Stonk)
    (wl : List WatchItem) (arm t : Nat) (h : arm ≤ t) :
    (commitMsgs d exp st wl arm t).countP isReload = 2 := by
  have hc : ¬ (t < arm ∨ opMatches FsOp.write = false) := by
    simp [opMatches]; omega
  simp [commitMsgs, watcherReloadTimes, hc, writeExcelCmdMsg, isReload]

/-- Witness for C1 with the watcher armed strictly before the commit. -/
theorem c1_commit_double_reload_witness :
    3 ≤ 10 ∧ (commitMsgs emptyDoc [] [] [] 3 10).countP isReload = 2 :=
  ⟨by decide, c1_commit_double_reload emptyDoc [] [] [] 3 10 (by decide)⟩

/-- A watcher armed after every listed event emits nothing: all events went
to no subscriber or to a defunct instance's channel. -/
theorem watcherReloadTimes_nil_of_lt (arm : Nat) (ts : List (Nat × FsOp))
    (h : ∀ p ∈ ts, p.1 < arm) : watcherReloadTimes arm ts = [] := by
  induction ts with
  | nil => rfl
  | cons p rest ih =>
    obtain ⟨t, op⟩ := p
    have ht : t < arm := h (t, op) (by simp)
    simp only [watcherReloadTimes, if_pos (Or.inl ht)]
    exact ih fun q hq => h q (by simp [hq])

/-- C3 counterexample: three write events 100ms apart (times 0, 100, 200)
produce one reload, but at time 500 = first event + D, which is earlier
than last event + D = 700 — the sleep runs from the first raw event, not
the last, so the signal is NOT emitted ≥ D after the last event.  Moreover
three write events 400ms apart (each gap < D) produce two reloads, not
exactly one, because the second watcher instance armed at time 500 sees the
event at time 800. -/
theorem c3_counterexample :
    watcherReloadTimes 0 [(0, .write), (100, .write), (200, .write)] = [500]
    ∧ ¬ (200 + D ≤ 500)
    ∧ watcherReloadTimes 0 [(0, .write), (400, .write), (800, .write)] = [500, 1300]
    ∧ ([500, 1300] : List Nat).length ≠ 1 :=
  ⟨rfl, by decide, rfl, by decide⟩

/-- C3 amended: the watcher is a leading-edge-plus-fixed-sleep filter, not a
trailing-edge debounce: for a burst whose first write-or-create event
arrives at time t (watcher armed at arm ≤ t) and whose remaining events all
arrive before t + D, exactly one reload is emitted, at time t + D — D after
the FIRST event of the burst, which can be earlier than D after the last;
bursts extending to t + D or beyond can produce further reloads. -/
theorem c3_debounce_from_first_event (arm t : Nat) (op : FsOp)
    (ts : List (Nat × FsOp)) (h1 : arm ≤ t) (hop : opMatches op = true)
    (h2 : ∀ p ∈ ts, p.1 < t + D) :
    watcherReloadTimes arm ((t, op) :: ts) = [t + D] := by
  have hc : ¬ (t < arm ∨ opMatches op = false) := by
    push_neg
    exact ⟨by omega, by simp [hop]⟩
  simp only [watcherReloadTimes, if_neg hc]
  rw [watcherReloadTimes_nil_of_lt (t + D) ts h2]

/-- Witness for C3: the Scenario D burst 0, 100, 200. -/
theorem c3_debounce_from_first_event_witness :
    0 ≤ 0 ∧ opMatches .write = true
    ∧ (∀ p ∈ ([(100, FsOp.write), (200, FsOp.write)] : List (Nat × FsOp)),
        p.1 < 0 + D)
    ∧ watcherReloadTimes 0 [(0, .write), (100, .write), (200, .write)] = [0 + D] :=
  ⟨by decide, by decide, by decide,
    c3_debounce_from_first_event 0 0 .write [(100, .write), (200, .write)]
      (by decide) (by decide) (by decide)⟩

/-! ## Round-trip machinery for C5 -/

/-- Setting a cell in a row beyond the current sheet content appends padding
rows and one fresh row holding only that cell. -/
theorem setCell_fresh (rows : List (List Cell)) (r c : Nat) (v : Cell)
    (h : rows.length ≤ r) :
    setCell rows r c v =
      rows ++ List.replicate (r - rows.length) [] ++ [setInRow [] c v] := by
  have h1 : r + 1 - rows.length = (r - rows.length) + 1 := by omega
  have hlen : (rows ++ List.replicate (r - rows.length) ([] : List Cell)).length = r := by
    simp
    omega
  simp only [setCell, h1, List.replicate_succ', ← List.append_assoc]
  have hg : ((rows ++ List.replicate (r - rows.length) ([] : List Cell)) ++ [[]]).getD r []
      = ([] : List Cell) := by
    rw [List.getD_eq_getElem?_getD, List.getElem?_append_right (le_of_eq hlen)]
    rw [hlen, Nat.sub_self]
    rfl
  rw [hg, List.set_append_right _ _ (le_of_eq hlen), hlen, Nat.sub_self]
  rfl

/-- Setting a cell of the last existing row edits that row in place. -/
theorem setCell_snoc (xs : List (List Cell)) (row : List Cell) (c : Nat) (v : Cell) :
    setCell (xs ++ [row]) xs.length c v = xs ++ [setInRow row c v] := by
  have hlen : (xs ++ [row]).length = xs.length + 1 := by simp
  have hg : (xs ++ [row]).getD xs.length [] = row := by
    rw [List.getD_eq_getElem?_getD, List.getElem?_append_right (le_refl _), Nat.sub_self]
    rfl
  simp only [setCell, hlen, Nat.sub_self, List.replicate_zero, List.append_nil]
  rw [hg, List.set_append_right _ _ (le_refl _), Nat.sub_self]
  rfl

/-- The row layout writeExcelData produces for one expense. -/
def expenseRow (e : Expense) : List Cell := [.str e.name, .num e.amount]

/-- The row layout writeExcelData produces for one stonk. -/
def stonkRow (st : Stonk) : List Cell :=
  [.str st.symbol, .num st.change, .str st.comment, .num st.extra]

/-- The row layout writeExcelData produces for one watch item. -/
def watchRow (w : WatchItem) : List Cell :=
  [.str w.symbol, .str w.qty, .str (if w.owned then "Yes" else "No")]

/-- Writing expenses into a sheet that ends exactly where the written region
begins appends one fresh two-cell row per expense. -/
theorem writeExpenseRows_eq (es : List Expense) :
    ∀ (rows : List (List Cell)) (i : Nat), rows.length = i + 1 →
      writeExpenseRows rows i es = rows ++ es.map expenseRow := by
  induction es with
  | nil => intro rows i _; simp [writeExpenseRows]
  | cons e rest ih =>
    intro rows i h
    have s1 : setCell rows (i + 1) 0 (.str e.name) = rows ++ [[Cell.str e.name]] := by
      rw [setCell_fresh rows (i + 1) 0 _ (by omega), h, Nat.sub_self]
      simp [setInRow]
    have s2 : setCell (rows ++ [[Cell.str e.name]]) (i + 1) 1 (.num e.amount)
        = rows ++ [expenseRow e] := by
      rw [← h, setCell_snoc]
      rfl
    calc writeExpenseRows rows i (e :: rest)
        = writeExpenseRows (rows ++ [expenseRow e]) (i + 1) rest := by
          simp only [writeExpenseRows, s1, s2]
      _ = (rows ++ [expenseRow e]) ++ rest.map expenseRow := by
          refine ih _ _ ?_
          simp
          omega
      _ = rows ++ (e :: rest).map expenseRow := by simp

/-- Writing stonks into a sheet that ends exactly where the written region
begins appends one fresh four-cell row per stonk. -/
theorem writeStonkRows_eq (sts : List Stonk) :
    ∀ (rows : List (List Cell)) (i : Nat), rows.length = i + 1 →
      writeStonkRows rows i sts = rows ++ sts.map stonkRow := by
  induction sts with
  | nil => intro rows i _; simp [writeStonkRows]
  | cons st rest ih =>
    intro rows i h
    have s1 : setCell rows (i + 1) 0 (.str st.symbol) = rows ++ [[Cell.str st.symbol]] := by
      rw [setCell_fresh rows (i + 1) 0 _ (by omega), h, Nat.sub_self]
      simp [setInRow]
    have s2 : setCell (rows ++ [[Cell.str st.symbol]]) (i + 1) 1 (.num st.change)
        = rows ++ [[Cell.str st.symbol, Cell.num st.change]] := by
      rw [← h, setCell_snoc]
      rfl
    have s3 : setCell (rows ++ [[Cell.str st.symbol, Cell.num st.change]])
        (i + 1) 2 (.str st.comment)
        = rows ++ [[Cell.str st.symbol, Cell.num st.change, Cell.str st.comment]] := by
      rw [← h, setCell_snoc]
      rfl
    have s4 : setCell
        (rows ++ [[Cell.str st.symbol, Cell.num st.change, Cell.str st.comment]])
        (i + 1) 3 (.num st.extra) = rows ++ [stonkRow st] := by
      rw [← h, setCell_snoc]
      rfl
    calc writeStonkRows rows i (st :: rest)
        = writeStonkRows (rows ++ [stonkRow st]) (i + 1) rest := by
          simp only [writeStonkRows, s1, s2, s3, s4]
      _ = (rows ++ [stonkRow st]) ++ rest.map stonkRow := by
          refine ih _ _ ?_
          simp
          omega
      _ = rows ++ (st :: rest).map stonkRow := by simp

/-- Writing watch items into a sheet that ends exactly where the written
region begins appends one fresh three-cell row per item. -/
theorem writeWatchRows_eq (ws : List WatchItem) :
    ∀ (rows : List (List Cell)) (i : Nat), rows.length = i + 1 →
      writeWatchRows rows i ws = rows ++ ws.map watchRow := by
  induction ws with
  | nil => intro rows i _; simp [writeWatchRows]
  | cons w rest ih =>
    intro rows i h
    have s1 : setCell rows (i + 1) 0 (.str w.symbol) = rows ++ [[Cell.str w.symbol]] := by
      rw [setCell_fresh rows (i + 1) 0 _ (by omega), h, Nat.sub_self]
      simp [setInRow]
    have s2 : setCell (rows ++ [[Cell.str w.symbol]]) (i + 1) 1 (.str w.qty)
        = rows ++ [[Cell.str w.symbol, Cell.str w.qty]] := by
      rw [← h, setCell_snoc]
      rfl
    have s3 : setCell (rows ++ [[Cell.str w.symbol, Cell.str w.qty]])
        (i + 1) 2 (.str (if w.owned then "Yes" else "No"))
        = rows ++ [watchRow w] := by
      rw [← h, setCell_snoc]
      rfl
    calc writeWatchRows rows i (w :: rest)
        = writeWatchRows (rows ++ [watchRow w]) (i + 1) rest := by
          simp only [writeWatchRows, s1, s2, s3]
      _ = (rows ++ [watchRow w]) ++ rest.map watchRow := by
          refine ih _ _ ?_
          simp
          omega
      _ = rows ++ (w :: rest).map watchRow := by simp

/-- The expense parser accepts exactly the row layout the write produces. -/
theorem readExp_fun_expenseRow (e : Expense) :
    (if (expenseRow e).length < 2 then none
      else some { name := cellStr ((expenseRow e).getD 0 (.str ""))
                  amount := cellFloat ((expenseRow e).getD 1 (.str "")) })
      = some e := by
  simp [expenseRow, cellStr, cellFloat]

/-- Parsing back the expense rows the write laid out recovers the list. -/
theorem readExpenses_write_rows (hdr : List Cell) (es : List Expense) :
    readExpenses (hdr :: es.map expenseRow) = es := by
  simp only [readExpenses, List.drop_succ_cons, List.drop_zero]
  induction es with
  | nil => rfl
  | cons e rest ih =>
    simp only [List.map_cons, List.filterMap_cons, readExp_fun_expenseRow]
    rw [ih]

/-- The stonk parser accepts exactly the row layout the write produces. -/
theorem readStonk_fun_stonkRow (st : Stonk) :
    (if (stonkRow st).length < 4 then none
      else some { symbol := cellStr ((stonkRow st).getD 0 (.str ""))
                  change := cellFloat ((stonkRow st).getD 1 (.str ""))
                  comment := cellStr ((stonkRow st).getD 2 (.str ""))
                  extra := cellFloat ((stonkRow st).getD 3 (.str "")) })
      = some st := by
  simp [stonkRow, cellStr, cellFloat]

/-- Parsing back the stonk rows the write laid out recovers the list. -/
theorem readStonks_write_rows (hdr : List Cell) (sts : List Stonk) :
    readStonks (hdr :: sts.map stonkRow) = sts := by
  simp only [readStonks, List.drop_succ_cons, List.drop_zero]
  induction sts with
  | nil => rfl
  | cons st rest ih =>
    simp only [List.map_cons, List.filterMap_cons, readStonk_fun_stonkRow]
    rw [ih]

/-- The Yes/No encoding of the owned flag round-trips. -/
theorem yesNo_roundtrip (b : Bool) : ((if b then "Yes" else "No") == "Yes") = b := by
  cases b <;> rfl

/-- The watch parser accepts exactly the row layout the write produces. -/
theorem readWatch_fun_watchRow (w : WatchItem) :
    (if (watchRow w).length < 3 then none
      else some { symbol := cellStr ((watchRow w).getD 0 (.str ""))
                  qty := cellStr ((watchRow w).getD 1 (.str ""))
                  owned := cellStr ((watchRow w).getD 2 (.str "")) == "Yes" })
      = some w := by
  simp [watchRow, cellStr, yesNo_roundtrip]

/-- Parsing back the watch rows the write laid out recovers the list. -/
theorem readWatchList_write_rows (hdr : List Cell) (ws : List WatchItem) :
    readWatchList (hdr :: ws.map watchRow) = ws := by
  simp only [readWatchList, List.drop_succ_cons, List.drop_zero]
  induction ws with
  | nil => rfl
  | cons w rest ih =>
    simp only [List.map_cons, List.filterMap_cons, readWatch_fun_watchRow]
    rw [ih]

/-- Summing getD over an initial range is summing the take. -/
theorem range_sum_getD (n : Nat) (l : List ℚ) :
    ((List.range n).map (fun k => l.getD k 0)).sum = (l.take n).sum := by
  induction n with
  | zero => simp
  | succ n ih =>
    rw [List.range_succ, List.map_append, List.sum_append, ih, List.take_succ,
      List.sum_append]
    simp only [List.map_cons, List.map_nil, List.sum_cons, List.sum_nil]
    cases h : l[n]? <;> simp [h]

/-- sumExpenses is the sum of the amounts. -/
theorem sumExpenses_eq_sum_map (l : List Expense) :
    sumExpenses l = (l.map Expense.amount).sum := by
  suffices h : ∀ a : ℚ, l.foldl (fun total e => total + e.amount) a
      = a + (l.map Expense.amount).sum by
    simpa [sumExpenses] using h 0
  induction l with
  | nil => intro a; simp
  | cons e rest ih =>
    intro a
    simp only [List.foldl_cons, List.map_cons, List.sum_cons, ih]
    ring

/-- On the sheet layout the write produces, the SUM(B3:B9) cell evaluates to
the amounts of the expenses at list positions 1 through 7 only: sheet data
row j holds expense j-2, so the first data row (sheet row 2, expense 0) is
outside the summed range and the range is capped at sheet row 9. -/
theorem sumFormulaB3B9_write_rows (hdr : List Cell) (es : List Expense) :
    sumFormulaB3B9 (hdr :: es.map expenseRow) =
      sumExpenses ((es.drop 1).take 7) := by
  have hpt : ∀ k : Nat,
      sumCellValue (((hdr :: es.map expenseRow).getD (k + 2) []).getD 1 (Cell.str ""))
        = ((es.map Expense.amount).drop 1).getD k 0 := by
    intro k
    have h2 : (hdr :: es.map expenseRow).getD (k + 2) [] = (es.map expenseRow).getD (k + 1) [] := by
      simp
    rw [h2, List.getD_eq_getElem?_getD (es.map expenseRow) (k + 1) [],
      List.getElem?_map,
      List.getD_eq_getElem?_getD ((es.map Expense.amount).drop 1) k 0,
      List.getElem?_drop, List.getElem?_map]
    have h3 : 1 + k = k + 1 := by omega
    rw [h3]
    cases h4 : es[k + 1]? <;> simp [h4, expenseRow, sumCellValue]
  calc sumFormulaB3B9 (hdr :: es.map expenseRow)
      = ((List.range 7).map (fun k => ((es.map Expense.amount).drop 1).getD k 0)).sum := by
        unfold sumFormulaB3B9
        exact congrArg List.sum (List.map_congr_left (fun k _ => hpt k))
    _ = (((es.map Expense.amount).drop 1).take 7).sum := range_sum_getD 7 _
    _ = sumExpenses ((es.drop 1).take 7) := by
        rw [sumExpenses_eq_sum_map, List.map_take, List.map_drop]

/-- C5 counterexample: two concrete failures of the round-trip claim.
First, write the single expense (X,5) into a fresh document (header row
only): the collections read back correctly, but the derived total is 0, not
5 = the sum of the rewritten amount column, because the SUM range B3:B9
excludes the first data row.  Second, write the single expense (New,5) into
a document whose Expenses sheet still holds two old data rows: positional
overwriting never truncates, so the read returns the stale second row in
addition to the written one and the collections are not equivalent to the
written Snapshot. -/
theorem c5_counterexample :
    (readExcelData (writeExcelData
        { expensesRows := [[Cell.str "Name", Cell.str "Amount"]]
          stonksRows := []
          watchListRows := [] }
        [{ name := "X", amount := 5 }] [] [])).totalExpenses = 0
    ∧ sumExpenses [({ name := "X", amount := 5 } : Expense)] = 5
    ∧ (0 : ℚ) ≠ 5
    ∧ (readExcelData (writeExcelData
        { expensesRows := [[Cell.str "Name", Cell.str "Amount"],
                           [Cell.str "Old", Cell.num 1],
                           [Cell.str "Old2", Cell.num 2]]
          stonksRows := []
          watchListRows := [] }
        [{ name := "New", amount := 5 }] [] [])).expenses =
      [{ name := "New", amount := 5 }, { name := "Old2", amount := 2 }]
    ∧ [({ name := "New", amount := 5 } : Expense), { name := "Old2", amount := 2 }]
      ≠ [({ name := "New", amount := 5 } : Expense)] := by
  have h1 : writeExcelData
      { expensesRows := [[Cell.str "Name", Cell.str "Amount"]]
        stonksRows := []
        watchListRows := [] }
      [{ name := "X", amount := 5 }] [] [] =
      { expensesRows := [[Cell.str "Name", Cell.str "Amount"],
                         [Cell.str "X", Cell.num 5]]
        stonksRows := []
        watchListRows := [] } := rfl
  have h2 : writeExcelData
      { expensesRows := [[Cell.str "Name", Cell.str "Amount"],
                         [Cell.str "Old", Cell.num 1],
                         [Cell.str "Old2", Cell.num 2]]
        stonksRows := []
        watchListRows := [] }
      [{ name := "New", amount := 5 }] [] [] =
      { expensesRows := [[Cell.str "Name", Cell.str "Amount"],
                         [Cell.str "New", Cell.num 5],
                         [Cell.str "Old2", Cell.num 2]]
        stonksRows := []
        watchListRows := [] } := rfl
  refine ⟨?_, by norm_num [sumExpenses], by norm_num, ?_, by decide⟩
  · rw [h1]
    norm_num [readExcelData, sumFormulaB3B9, List.range_succ, sumCellValue]
  · rw [h2]
    rfl

/-- C5 amended: the round-trip law holds for a fresh document — when each
collection sheet holds exactly its header row, writing a Snapshot and
reading the document back recovers the expenses, stonks and watchList
exactly; the derived total, however, is not the sum of the rewritten amount
column but the sum of the amounts at expense positions 1 through 7 only,
because the evaluated range SUM(B3:B9) starts one sheet row below the first
data row and is capped at sheet row 9.  (On a non-fresh document, stale rows
beyond the written region additionally survive, as the counterexample
shows.) -/
theorem c5_roundtrip_on_fresh_document (hE hS hW : List Cell)
    (exp : List Expense) (st : List Stonk) (wl : List WatchItem) :
    readExcelData (writeExcelData
        { expensesRows := [hE], stonksRows := [hS], watchListRows := [hW] }
        exp st wl) =
      { expenses := exp
        stonks := st
        watchList := wl
        totalExpenses := sumExpenses ((exp.drop 1).take 7) } := by
  have he : writeExpenseRows [hE] 0 exp = hE :: exp.map expenseRow := by
    rw [writeExpenseRows_eq exp [hE] 0 (by simp)]
    rfl
  have hs : writeStonkRows [hS] 0 st = hS :: st.map stonkRow := by
    rw [writeStonkRows_eq st [hS] 0 (by simp)]
    rfl
  have hw : writeWatchRows [hW] 0 wl = hW :: wl.map watchRow := by
    rw [writeWatchRows_eq wl [hW] 0 (by simp)]
    rfl
  simp only [writeExcelData, readExcelData, he, hs, hw,
    readExpenses_write_rows, readStonks_write_rows, readWatchList_write_rows,
    sumFormulaB3B9_write_rows]

end ExpenseTracker
